import Mathlib

/-!
Shallow embedding of the `mac-mcp` mail deduplication and cache layer.

Sources embedded here:
* `src/mac-mail-mcp/src/mail/security.ts` — `UnifiedMessage`,
  `MessageDeduplicator` (deduplicate, isDuplicate, recordMessage,
  generateContentHash, generateFuzzyKey, isFuzzyMatch, normalizeSender,
  calculateSimilarity, findPotentialDuplicates, areRelated).
* `src/unnamed/part_001` — `MailCache` (TTL constants, cacheFolders,
  getCachedFolders, cacheMessage(s), getCachedMessage, cacheMessageList,
  getCachedMessageList, cacheSearchResults, getCachedSearchResults, cleanup).

Modelling conventions:
* JS strings are Lean `String`s; character-level operations work on `.data`
  (`List Char`).  `charCodeAt` is `Char.toNat` (the embedded inputs are ASCII,
  where UTF-16 code units coincide with code points).
* JS `Date` values are their epoch-millisecond timestamps (`Int`);
  `Date.prototype.toISOString` is reimplemented below (`msToIso`).
* JS `Set`/`Map` are association lists with the same membership/lookup
  semantics.
* JS number division in `calculateSimilarity` is exact rational division
  (`mkRat`); the literal `0.8` is `4/5`.
* `Array.prototype.sort` (ECMAScript: a stable sort consistent with the
  comparator) is modelled by the stable `List.insertionSort` on the
  corresponding relation; for a consistent comparator the stable sorted
  permutation is unique, so this is exact.
* SQLite tables are lists of rows; `INSERT OR REPLACE` removes the rows that
  share the primary key and appends the new row; `SELECT ... WHERE` is
  `List.filter` / `List.find?`.  JSON-serialised columns (string arrays)
  are stored directly, since `JSON.parse ∘ JSON.stringify` is the identity
  on them.
-/

/-- JS `\s` (whitespace class), restricted to the ASCII range. -/
def jsWhitespace (c : Char) : Bool :=
  c = ' ' || c = '\t' || c = '\n' || c = '\r' || c = '\x0b' || c = '\x0c'

/-- `String.prototype.toLowerCase`, as a `List Char` (ASCII case map). -/
def toLowerChars (s : String) : List Char :=
  s.data.map Char.toLower

/-- `String.prototype.trim`: strip leading and trailing whitespace. -/
def trimChars (l : List Char) : List Char :=
  ((l.dropWhile jsWhitespace).reverse.dropWhile jsWhitespace).reverse

/-- Two's-complement 32-bit wrap (`| 0` / `& hash` in JS). -/
def toInt32 (z : Int) : Int :=
  (z + 2147483648).emod 4294967296 - 2147483648

/-- One step of the hash loop in `generateContentHash`:
`hash = ((hash << 5) - hash) + char; hash = hash & hash`. -/
def jsHashStep (h : Int) (c : Char) : Int :=
  toInt32 (toInt32 (h * 32) - h + (c.toNat : Int))

/-- Two-digit zero padding used by ISO-8601 fields. -/
def pad2 (n : Nat) : List Char :=
  if n < 10 then '0' :: (toString n).data else (toString n).data

/-- Three-digit zero padding (milliseconds field). -/
def pad3 (n : Nat) : List Char :=
  if n < 10 then '0' :: '0' :: (toString n).data
  else if n < 100 then '0' :: (toString n).data
  else (toString n).data

/-- Four-digit zero padding (year field). -/
def pad4 (n : Nat) : List Char :=
  if n < 10 then '0' :: '0' :: '0' :: (toString n).data
  else if n < 100 then '0' :: '0' :: (toString n).data
  else if n < 1000 then '0' :: (toString n).data
  else (toString n).data

/-- `Date.prototype.toISOString` on an epoch-millisecond timestamp
(proleptic Gregorian, format `YYYY-MM-DDTHH:MM:SS.mmmZ`; the days-to-civil
conversion is the standard era decomposition). -/
def msToIso (ms : Int) : List Char :=
  let dayMs : Int := 86400000
  let days := Int.fdiv ms dayMs
  let msOfDay := (ms - days * dayMs).toNat
  let z := days + 719468
  let era := Int.fdiv z 146097
  let doe := (z - era * 146097).toNat
  let yoe := (doe - doe / 1460 + doe / 36524 - doe / 146096) / 365
  let doy := doe - (365 * yoe + yoe / 4 - yoe / 100)
  let mp := (5 * doy + 2) / 153
  let d := doy - (153 * mp + 2) / 5 + 1
  let m := if mp < 10 then mp + 3 else mp - 9
  let y : Int := era * 400 + yoe + (if m ≤ 2 then 1 else 0)
  pad4 y.toNat ++ '-' :: pad2 m ++ '-' :: pad2 d ++
    'T' :: pad2 (msOfDay / 3600000) ++
    ':' :: pad2 (msOfDay % 3600000 / 60000) ++
    ':' :: pad2 (msOfDay % 60000 / 1000) ++
    '.' :: pad3 (msOfDay % 1000) ++ ['Z']

/-- Inner loop of `calculateSimilarity`'s DP: given the previous matrix row
`prev` (as a function of the column index), the row head `base`
(`matrix[j][0] = j`) and the substitution costs of this row, compute the
current row. -/
def levInner (base : Nat) (prev : Nat → Nat) (cost : Nat → Nat) : Nat → Nat
  | 0 => base
  | i + 1 =>
    min (min (prev (i + 1) + 1) (levInner base prev cost i + 1))
      (prev i + cost i)

/-- The Levenshtein DP matrix of `calculateSimilarity`:
`levMemo s1 s2 j i = matrix[j][i]` (row index `j` runs over `s2`, column
index `i` over `s1`; `cost = s1[i-1] === s2[j-1] ? 0 : 1`). -/
def levMemo (s1 s2 : List Char) : Nat → Nat → Nat
  | 0 => fun i => i
  | j + 1 =>
    levInner (j + 1) (levMemo s1 s2 j)
      (fun i => if s1.getD i ' ' = s2.getD j ' ' then 0 else 1)

/-- `matrix[s2.length][s1.length]`: the edit distance between `s1` and `s2`. -/
def levDistance (s1 s2 : List Char) : Nat :=
  levMemo s1 s2 s2.length s1.length

/-- `MessageDeduplicator.calculateSimilarity`: lowercase both strings, return
`1` if equal, `0` if either is empty, else
`(maxLength - distance) / maxLength` as an exact rational (`0.8 = 4/5`). -/
def calculateSimilarity (str1 str2 : String) : Rat :=
  let s1 := toLowerChars str1
  let s2 := toLowerChars str2
  if s1 = s2 then 1
  else if s1.length = 0 ∨ s2.length = 0 then 0
  else mkRat ((max s1.length s2.length : Int) - levDistance s1 s2)
    (max s1.length s2.length)

/-- Message source tag (`'mac-mail' | 'imap'`). -/
inductive MsgSource
  | macMail
  | imap
deriving DecidableEq, Repr

/-- `UnifiedMessage` (the fields the deduplicator reads; optional JS fields
are `Option`s, the `date` is its epoch-millisecond timestamp). -/
structure UnifiedMessage where
  id : String
  globalMessageId : Option Nat
  messageIdHeader : Option String
  subject : String
  «from» : String
  date : Int
  account : String
  source : MsgSource
deriving DecidableEq, Repr

/-- JS truthiness of the optional numeric `globalMessageId`
(`undefined` and `0` are falsy). -/
def gidTruthy : Option Nat → Bool
  | none => false
  | some g => g != 0

/-- JS truthiness of the optional string `messageIdHeader`
(`undefined` and `""` are falsy). -/
def strTruthy : Option String → Bool
  | none => false
  | some s => s != ""

/-- `MessageDeduplicator.normalizeSender`: lowercase, remove the first
`<...>` group, drop all quotes and whitespace, trim. -/
def removeAngleAux : List Char → Option (List Char)
  | [] => none
  | '>' :: _ => none
  | _ :: rest => removeAngleTail rest
where
  removeAngleTail : List Char → Option (List Char)
    | [] => none
    | '>' :: r => some r
    | _ :: r => removeAngleTail r

/-- First-match semantics of `.replace(/<[^>]+>/, '')`: delete the first
`<`…`>` group containing at least one non-`>` character. -/
def removeAngle : List Char → List Char
  | [] => []
  | '<' :: rest =>
    match removeAngleAux rest with
    | some r => r
    | none => '<' :: removeAngle rest
  | c :: rest => c :: removeAngle rest

def normalizeSender (s : String) : List Char :=
  trimChars
    (((removeAngle (toLowerChars s)).filter
      (fun c => !(c = '"' || jsWhitespace c))))

/-- `MessageDeduplicator.isFuzzyMatch`: same normalized sender, raw-subject
similarity at least `0.8`, timestamps within 24 hours. -/
def isFuzzyMatch (m1 m2 : UnifiedMessage) : Bool :=
  if normalizeSender m1.«from» ≠ normalizeSender m2.«from» then false
  else if calculateSimilarity m1.subject m2.subject < mkRat 4 5 then false
  else if 24 * 60 * 60 * 1000 < (m1.date - m2.date).natAbs then false
  else true

/-- `.replace(/^(re:|fwd?:|fw:)\s*/g, '')` on a lowercased subject: strip one
leading `re:` / `fwd:` / `fw:` together with the whitespace after it. -/
def stripReplyMarker (l : List Char) : List Char :=
  if l.take 3 = ['r', 'e', ':'] then (l.drop 3).dropWhile jsWhitespace
  else if l.take 4 = ['f', 'w', 'd', ':'] then (l.drop 4).dropWhile jsWhitespace
  else if l.take 3 = ['f', 'w', ':'] then (l.drop 3).dropWhile jsWhitespace
  else l

/-- `.replace(/\s+/g, ' ')`: collapse each whitespace run to one space. -/
def collapseWs : List Char → List Char
  | [] => []
  | c :: rest =>
    if jsWhitespace c then
      match rest with
      | [] => [' ']
      | d :: _ =>
        if jsWhitespace d then collapseWs rest else ' ' :: collapseWs rest
    else c :: collapseWs rest

/-- `MessageDeduplicator.generateFuzzyKey`:
`normalizedSubject|normalizedSender|hourKey`. -/
def generateFuzzyKey (m : UnifiedMessage) : List Char :=
  let normalizedSubject :=
    (trimChars (collapseWs (stripReplyMarker (toLowerChars m.subject)))).take 50
  let normalizedSender := normalizeSender m.«from»
  let hourKey := (msToIso m.date).take 13
  normalizedSubject ++ '|' :: normalizedSender ++ '|' :: hourKey

/-- `MessageDeduplicator.generateContentHash`: join the nonempty components
(lowercased trimmed subject, lowercased trimmed sender, minute-precision ISO
date, lowercased account) with `|` and hash with the 32-bit rolling hash,
rendered in decimal. -/
def generateContentHash (m : UnifiedMessage) : String :=
  let content :=
    List.intercalate ['|']
      ([trimChars (toLowerChars m.subject),
        trimChars (toLowerChars m.«from»),
        (msToIso m.date).take 16,
        toLowerChars m.account].filter (fun p => p ≠ []))
  toString (content.foldl jsHashStep 0)

/-- Which deduplication strategy matched (the four branches of
`isDuplicate`, in source order). -/
inductive DedupMethod
  | globalId
  | headerId
  | byContentHash
  | fuzzy
deriving DecidableEq, Repr

/-- The deduplicator's mutable state: `seenGlobalIds`, `seenMessageIds`,
`seenContentHashes` (sets, as lists with `contains`) and `fuzzyMatches`
(a map from fuzzy key to message). -/
structure DedupState where
  seenGlobalIds : List Nat
  seenMessageIds : List String
  seenContentHashes : List String
  fuzzyMatches : List (List Char × UnifiedMessage)
deriving DecidableEq, Repr

/-- The state after `reset()`. -/
def emptyDedupState : DedupState := ⟨[], [], [], []⟩

/-- `Map.prototype.get`. -/
def mapGet (m : List (List Char × UnifiedMessage)) (k : List Char) :
    Option UnifiedMessage :=
  match m with
  | [] => none
  | (k', v) :: rest => if k' = k then some v else mapGet rest k

/-- `Map.prototype.set` (replaces the value at an existing key in place,
else appends). -/
def mapSet (m : List (List Char × UnifiedMessage)) (k : List Char)
    (v : UnifiedMessage) : List (List Char × UnifiedMessage) :=
  match m with
  | [] => [(k, v)]
  | (k', v') :: rest =>
    if k' = k then (k, v) :: rest else (k', v') :: mapSet rest k v

/-- `MessageDeduplicator.isDuplicate`, with the branch that matched made
explicit: `some meth` means the message is a duplicate and `meth`'s stats
counter is incremented; `none` means it is not a duplicate.  The four
strategies are tried in source order (global id, Message-ID header, content
hash, fuzzy). -/
def isDuplicate (st : DedupState) (m : UnifiedMessage) : Option DedupMethod :=
  if gidTruthy m.globalMessageId &&
      st.seenGlobalIds.contains (m.globalMessageId.getD 0) then
    some .globalId
  else if strTruthy m.messageIdHeader &&
      st.seenMessageIds.contains (m.messageIdHeader.getD "") then
    some .headerId
  else if st.seenContentHashes.contains (generateContentHash m) then
    some .byContentHash
  else
    match mapGet st.fuzzyMatches (generateFuzzyKey m) with
    | some existing => if isFuzzyMatch m existing then some .fuzzy else none
    | none => none

/-- `MessageDeduplicator.recordMessage`: record the (truthy) identifiers,
the content hash and the fuzzy key of a retained message. -/
def recordMessage (st : DedupState) (m : UnifiedMessage) : DedupState :=
  { seenGlobalIds :=
      match m.globalMessageId with
      | some g => if g ≠ 0 then g :: st.seenGlobalIds else st.seenGlobalIds
      | none => st.seenGlobalIds
    seenMessageIds :=
      match m.messageIdHeader with
      | some h => if h ≠ "" then h :: st.seenMessageIds else st.seenMessageIds
      | none => st.seenMessageIds
    seenContentHashes := generateContentHash m :: st.seenContentHashes
    fuzzyMatches := mapSet st.fuzzyMatches (generateFuzzyKey m) m }

/-- The `deduplicationMethods` counters of `DeduplicationStats`. -/
structure DedupMethodCounts where
  globalMessageId : Nat
  messageIdHeader : Nat
  contentHash : Nat
  fuzzyMatch : Nat
deriving DecidableEq, Repr

/-- Increment the counter of the matched strategy. -/
def bumpMethod (c : DedupMethodCounts) : DedupMethod → DedupMethodCounts
  | .globalId => { c with globalMessageId := c.globalMessageId + 1 }
  | .headerId => { c with messageIdHeader := c.messageIdHeader + 1 }
  | .byContentHash => { c with contentHash := c.contentHash + 1 }
  | .fuzzy => { c with fuzzyMatch := c.fuzzyMatch + 1 }

/-- Sum of the four strategy counters. -/
def methodSum (c : DedupMethodCounts) : Nat :=
  c.globalMessageId + c.messageIdHeader + c.contentHash + c.fuzzyMatch

/-- The `bySource` counters of `DeduplicationStats`. -/
structure BySourceCounts where
  macMail : Nat
  imap : Nat
deriving DecidableEq, Repr

/-- `DeduplicationStats`. -/
structure DeduplicationStats where
  totalMessages : Nat
  uniqueMessages : Nat
  duplicatesRemoved : Nat
  bySource : BySourceCounts
  deduplicationMethods : DedupMethodCounts
deriving DecidableEq, Repr

/-- The main scan loop of `deduplicate`: keep each non-duplicate message and
record it, count each duplicate under the strategy that recognised it. -/
def dedupLoop (msgs : List UnifiedMessage) (st : DedupState)
    (c : DedupMethodCounts) : List UnifiedMessage × DedupMethodCounts :=
  match msgs with
  | [] => ([], c)
  | m :: rest =>
    match isDuplicate st m with
    | some meth => dedupLoop rest st (bumpMethod c meth)
    | none =>
      let p := dedupLoop rest (recordMessage st m) c
      (m :: p.1, p.2)

/-- Per-source tally of the scanned messages. -/
def tallySource (msgs : List UnifiedMessage) : BySourceCounts :=
  msgs.foldl
    (fun acc m =>
      match m.source with
      | .macMail => { acc with macMail := acc.macMail + 1 }
      | .imap => { acc with imap := acc.imap + 1 })
    ⟨0, 0⟩

/-- Sort comparison of `deduplicate`: the comparator
`(a, b) => b.date.getTime() - a.date.getTime()` orders by date, newest
first; `a` may precede `b` exactly when `b.date ≤ a.date`. -/
def dateGe (a b : UnifiedMessage) : Prop := b.date ≤ a.date

instance : DecidableRel dateGe := fun a b => Int.decLe b.date a.date

instance : IsTotal UnifiedMessage dateGe :=
  ⟨fun a b => (Int.le_total b.date a.date : dateGe a b ∨ dateGe b a)⟩

instance : IsTrans UnifiedMessage dateGe :=
  ⟨fun _ _ _ h1 h2 => le_trans h2 h1⟩

/-- Result record of `deduplicate`. -/
structure DedupResult where
  uniqueMessages : List UnifiedMessage
  stats : DeduplicationStats
deriving DecidableEq, Repr

/-- `MessageDeduplicator.deduplicate`: reset the state, sort by date
descending (stable), scan with `isDuplicate` / `recordMessage`, and fill in
the statistics (`duplicatesRemoved = totalMessages - uniqueMessages`). -/
def deduplicate (msgs : List UnifiedMessage) : DedupResult :=
  let sorted := List.insertionSort dateGe msgs
  let p := dedupLoop sorted emptyDedupState ⟨0, 0, 0, 0⟩
  { uniqueMessages := p.1
    stats :=
      { totalMessages := msgs.length
        uniqueMessages := p.1.length
        duplicatesRemoved := msgs.length - p.1.length
        bySource := tallySource sorted
        deduplicationMethods := p.2 } }

/-- `MessageDeduplicator.areRelated`: same (truthy) global message id, or
same (truthy) Message-ID header, or fuzzy match.  (Note: no content-hash
comparison.) -/
def areRelated (m1 m2 : UnifiedMessage) : Bool :=
  if gidTruthy m1.globalMessageId && gidTruthy m2.globalMessageId &&
      decide (m1.globalMessageId = m2.globalMessageId) then true
  else if strTruthy m1.messageIdHeader && strTruthy m2.messageIdHeader &&
      decide (m1.messageIdHeader = m2.messageIdHeader) then true
  else isFuzzyMatch m1 m2

/-- Inner loop of `findPotentialDuplicates`: collect the unprocessed
messages related to `seed`, marking them processed as they are collected. -/
def collectGroup (seed : UnifiedMessage) (msgs : List UnifiedMessage)
    (processed : List String) : List UnifiedMessage × List String :=
  match msgs with
  | [] => ([], processed)
  | other :: rest =>
    if processed.contains other.id || other.id == seed.id then
      collectGroup seed rest processed
    else if areRelated seed other then
      let p := collectGroup seed rest (other.id :: processed)
      (other :: p.1, p.2)
    else collectGroup seed rest processed

/-- Outer loop of `findPotentialDuplicates`: each unprocessed message seeds
a group; only groups with more than one member are kept. -/
def groupsLoop (msgs all : List UnifiedMessage) (processed : List String) :
    List (List UnifiedMessage) :=
  match msgs with
  | [] => []
  | m :: rest =>
    if processed.contains m.id then groupsLoop rest all processed
    else
      let p := collectGroup m all (m.id :: processed)
      let group := m :: p.1
      if 1 < group.length then group :: groupsLoop rest all p.2
      else groupsLoop rest all p.2

/-- Result record of `findPotentialDuplicates`. -/
structure PotentialDuplicates where
  duplicateGroups : List (List UnifiedMessage)
  stats : DeduplicationStats
deriving DecidableEq, Repr

/-- `MessageDeduplicator.findPotentialDuplicates`: non-destructive grouping
of related messages (the stats are those of a `deduplicate` run on the same
input). -/
def findPotentialDuplicates (msgs : List UnifiedMessage) :
    PotentialDuplicates :=
  { duplicateGroups := groupsLoop msgs msgs []
    stats := (deduplicate msgs).stats }

/-! ## `MailCache` (src/unnamed/part_001) -/

/-- `FOLDER_TTL`: 1 hour for the folder list. -/
def FOLDER_TTL : Int := 60 * 60 * 1000

/-- `MESSAGE_LIST_TTL`: 5 minutes for message lists. -/
def MESSAGE_LIST_TTL : Int := 5 * 60 * 1000

/-- `MESSAGE_CONTENT_TTL`: 24 hours for message content. -/
def MESSAGE_CONTENT_TTL : Int := 24 * 60 * 60 * 1000

/-- `SEARCH_TTL`: 2 minutes for search results. -/
def SEARCH_TTL : Int := 2 * 60 * 1000

/-- `MailFolder` (client type). -/
structure MailFolder where
  name : String
  accountName : String
  messageCount : Nat
  unreadCount : Nat
deriving DecidableEq, Repr

/-- `MailMessage` (client type; optional fields are `Option`s). -/
structure MailMessage where
  id : String
  subject : String
  sender : String
  senderName : Option String
  recipients : List String
  dateSent : String
  dateReceived : String
  content : Option String
  snippet : Option String
  mailbox : String
  accountName : String
  isRead : Bool
  isFlagged : Bool
  hasAttachments : Bool
deriving DecidableEq, Repr

/-- Row of the `folders` table (primary key `(name, account_name)`). -/
structure FolderRow where
  name : String
  accountName : String
  messageCount : Nat
  unreadCount : Nat
  cachedAt : Int
deriving DecidableEq, Repr

/-- Row of the `messages` table (primary key `id`); booleans are stored as
the integers `0`/`1`, as in the schema. -/
structure MessageRow where
  id : String
  subject : String
  sender : String
  senderName : Option String
  recipients : List String
  dateSent : String
  dateReceived : String
  content : Option String
  snippet : Option String
  mailbox : String
  accountName : String
  isRead : Nat
  isFlagged : Nat
  hasAttachments : Nat
  cachedAt : Int
deriving DecidableEq, Repr

/-- Row of the `message_lists` table (primary key `cache_key`). -/
structure MessageListRow where
  cacheKey : String
  messageIds : List String
  totalCount : Nat
  cachedAt : Int
deriving DecidableEq, Repr

/-- Row of the `search_cache` table (primary key `(query, search_in)`). -/
structure SearchRow where
  query : String
  searchIn : String
  resultIds : List String
  cachedAt : Int
deriving DecidableEq, Repr

/-- The four tables of the cache database. -/
structure MailCacheState where
  folders : List FolderRow
  messages : List MessageRow
  messageLists : List MessageListRow
  searchCache : List SearchRow
deriving DecidableEq, Repr

/-- The freshly-initialised database. -/
def emptyCache : MailCacheState := ⟨[], [], [], []⟩

/-- `INSERT OR REPLACE INTO folders`. -/
def insertFolderRow (t : List FolderRow) (r : FolderRow) : List FolderRow :=
  t.filter (fun x => ¬(x.name = r.name ∧ x.accountName = r.accountName)) ++ [r]

/-- `MailCache.cacheFolders` (each row stamped with the same `now`). -/
def cacheFolders (now : Int) (st : MailCacheState) (fs : List MailFolder) :
    MailCacheState :=
  { st with
    folders :=
      fs.foldl
        (fun t f =>
          insertFolderRow t ⟨f.name, f.accountName, f.messageCount,
            f.unreadCount, now⟩)
        st.folders }

/-- `MailCache.getCachedFolders`: all rows fresher than `now - FOLDER_TTL`,
or `null` when there are none. -/
def getCachedFolders (now : Int) (st : MailCacheState) :
    Option (List MailFolder) :=
  let minTime := now - FOLDER_TTL
  let rows := st.folders.filter (fun r => minTime < r.cachedAt)
  if rows.isEmpty then none
  else some (rows.map (fun r => ⟨r.name, r.accountName, r.messageCount,
    r.unreadCount⟩))

/-- `INSERT OR REPLACE INTO messages`. -/
def insertMessageRow (t : List MessageRow) (r : MessageRow) :
    List MessageRow :=
  t.filter (fun x => ¬(x.id = r.id)) ++ [r]

/-- JS `x || null` on an optional string (an empty string is falsy). -/
def orNull : Option String → Option String
  | some s => if s = "" then none else some s
  | none => none

/-- `MailCache.cacheMessage`. -/
def cacheMessage (now : Int) (st : MailCacheState) (m : MailMessage) :
    MailCacheState :=
  { st with
    messages :=
      insertMessageRow st.messages
        ⟨m.id, m.subject, m.sender, orNull m.senderName, m.recipients,
          m.dateSent, m.dateReceived, orNull m.content, orNull m.snippet,
          m.mailbox, m.accountName, (if m.isRead then 1 else 0),
          (if m.isFlagged then 1 else 0), (if m.hasAttachments then 1 else 0),
          now⟩ }

/-- `MailCache.cacheMessages`: the batched per-message inserts. -/
def cacheMessages (now : Int) (st : MailCacheState) (ms : List MailMessage) :
    MailCacheState :=
  ms.foldl (cacheMessage now) st

/-- `MailCache.getCachedMessage`: the TTL is `MESSAGE_CONTENT_TTL` when
content is requested, else `MESSAGE_LIST_TTL`; content is masked when not
requested. -/
def getCachedMessage (now : Int) (st : MailCacheState) (id : String)
    (includeContent : Bool) : Option MailMessage :=
  let ttl := if includeContent then MESSAGE_CONTENT_TTL else MESSAGE_LIST_TTL
  let minTime := now - ttl
  (st.messages.find? (fun r => r.id = id ∧ minTime < r.cachedAt)).map
    (fun r =>
      ⟨r.id, r.subject, r.sender, r.senderName, r.recipients, r.dateSent,
        r.dateReceived, (if includeContent then r.content else none),
        r.snippet, r.mailbox, r.accountName, (r.isRead == 1),
        (r.isFlagged == 1), (r.hasAttachments == 1)⟩)

/-- `INSERT OR REPLACE INTO message_lists`. -/
def insertMessageListRow (t : List MessageListRow) (r : MessageListRow) :
    List MessageListRow :=
  t.filter (fun x => ¬(x.cacheKey = r.cacheKey)) ++ [r]

/-- `MailCache.cacheMessageList`. -/
def cacheMessageList (now : Int) (st : MailCacheState) (cacheKey : String)
    (messageIds : List String) (totalCount : Nat) : MailCacheState :=
  { st with
    messageLists :=
      insertMessageListRow st.messageLists
        ⟨cacheKey, messageIds, totalCount, now⟩ }

/-- `MailCache.getCachedMessageList`. -/
def getCachedMessageList (now : Int) (st : MailCacheState)
    (cacheKey : String) : Option (List String × Nat) :=
  let minTime := now - MESSAGE_LIST_TTL
  (st.messageLists.find?
    (fun r => r.cacheKey = cacheKey ∧ minTime < r.cachedAt)).map
    (fun r => (r.messageIds, r.totalCount))

/-- `INSERT OR REPLACE INTO search_cache`. -/
def insertSearchRow (t : List SearchRow) (r : SearchRow) : List SearchRow :=
  t.filter (fun x => ¬(x.query = r.query ∧ x.searchIn = r.searchIn)) ++ [r]

/-- `MailCache.cacheSearchResults`. -/
def cacheSearchResults (now : Int) (st : MailCacheState) (query searchIn : String)
    (messageIds : List String) : MailCacheState :=
  { st with
    searchCache :=
      insertSearchRow st.searchCache ⟨query, searchIn, messageIds, now⟩ }

/-- `MailCache.getCachedSearchResults`. -/
def getCachedSearchResults (now : Int) (st : MailCacheState)
    (query searchIn : String) : Option (List String) :=
  let minTime := now - SEARCH_TTL
  (st.searchCache.find?
    (fun r => r.query = query ∧ r.searchIn = searchIn ∧
      minTime < r.cachedAt)).map (fun r => r.resultIds)

/-- `MailCache.cleanup`: delete from every table the rows with
`cached_at < now - 24h` (a fixed retention horizon, independent of the
per-type TTLs). -/
def cleanup (now : Int) (st : MailCacheState) : MailCacheState :=
  let oneDayAgo := now - 24 * 60 * 60 * 1000
  { folders := st.folders.filter (fun r => ¬(r.cachedAt < oneDayAgo))
    messages := st.messages.filter (fun r => ¬(r.cachedAt < oneDayAgo))
    messageLists := st.messageLists.filter (fun r => ¬(r.cachedAt < oneDayAgo))
    searchCache := st.searchCache.filter (fun r => ¬(r.cachedAt < oneDayAgo)) }

/-! ## Helper lemmas -/

theorem bumpMethod_sum (c : DedupMethodCounts) (meth : DedupMethod) :
    methodSum (bumpMethod c meth) = methodSum c + 1 := by
  cases meth <;> simp [bumpMethod, methodSum] <;> omega

theorem dedupLoop_sublist (l : List UnifiedMessage) (st : DedupState)
    (c : DedupMethodCounts) : List.Sublist (dedupLoop l st c).1 l := by
  induction l generalizing st c with
  | nil => simp [dedupLoop]
  | cons m rest ih =>
    cases h : isDuplicate st m with
    | some meth => simpa [dedupLoop, h] using (ih st (bumpMethod c meth)).cons m
    | none => simpa [dedupLoop, h] using (ih (recordMessage st m) c).cons₂ m

theorem dedupLoop_sum (l : List UnifiedMessage) (st : DedupState)
    (c : DedupMethodCounts) :
    methodSum (dedupLoop l st c).2 + (dedupLoop l st c).1.length
      = methodSum c + l.length := by
  induction l generalizing st c with
  | nil => simp [dedupLoop]
  | cons m rest ih =>
    cases h : isDuplicate st m with
    | some meth =>
      have := ih st (bumpMethod c meth)
      have hb := bumpMethod_sum c meth
      simp only [dedupLoop, h]
      simp only [List.length_cons]
      omega
    | none =>
      have := ih (recordMessage st m) c
      simp only [dedupLoop, h]
      simp only [List.length_cons]
      omega

theorem dedupLoop_rescan (l : List UnifiedMessage) (st : DedupState)
    (c c' : DedupMethodCounts) :
    dedupLoop ((dedupLoop l st c).1) st c' = ((dedupLoop l st c).1, c') := by
  induction l generalizing st c c' with
  | nil => simp [dedupLoop]
  | cons m rest ih =>
    cases h : isDuplicate st m with
    | some meth =>
      simp only [dedupLoop, h]
      exact ih st (bumpMethod c meth) c'
    | none =>
      simp only [dedupLoop, h]
      simp [dedupLoop, h, ih (recordMessage st m) c c']

/-- The unique output of `deduplicate` stays sorted by date descending. -/
theorem dedup_unique_sorted (msgs : List UnifiedMessage) :
    List.Sorted dateGe (deduplicate msgs).uniqueMessages := by
  have hsorted : List.Sorted dateGe (List.insertionSort dateGe msgs) :=
    List.sorted_insertionSort dateGe msgs
  have hsub := dedupLoop_sublist (List.insertionSort dateGe msgs)
    emptyDedupState ⟨0, 0, 0, 0⟩
  show List.Sorted dateGe (dedupLoop (List.insertionSort dateGe msgs)
    emptyDedupState ⟨0, 0, 0, 0⟩).1
  exact hsorted.sublist hsub

/-! ## C1 and C2 -/

/-- C1: for every input list, `deduplicate` returns stats with
`totalMessages` equal to the input length,
`uniqueMessages + duplicatesRemoved = totalMessages` (with `uniqueMessages`
the length of the returned unique list), and the four
`deduplicationMethods` counters summing exactly to `duplicatesRemoved`
(each duplicate is counted by `isDuplicate` under exactly the first
strategy that matches it, in the fixed priority order). -/
theorem dedup_conservation (msgs : List UnifiedMessage) :
    (deduplicate msgs).stats.totalMessages = msgs.length ∧
    (deduplicate msgs).stats.uniqueMessages +
        (deduplicate msgs).stats.duplicatesRemoved
      = (deduplicate msgs).stats.totalMessages ∧
    (deduplicate msgs).stats.uniqueMessages
      = (deduplicate msgs).uniqueMessages.length ∧
    methodSum (deduplicate msgs).stats.deduplicationMethods
      = (deduplicate msgs).stats.duplicatesRemoved := by
  have hlen : (dedupLoop (List.insertionSort dateGe msgs) emptyDedupState
      ⟨0, 0, 0, 0⟩).1.length ≤ msgs.length := by
    have h1 := (dedupLoop_sublist (List.insertionSort dateGe msgs)
      emptyDedupState ⟨0, 0, 0, 0⟩).length_le
    have h2 : (List.insertionSort dateGe msgs).length = msgs.length :=
      List.length_insertionSort dateGe msgs
    omega
  have hsum := dedupLoop_sum (List.insertionSort dateGe msgs)
    emptyDedupState ⟨0, 0, 0, 0⟩
  have h2 : (List.insertionSort dateGe msgs).length = msgs.length :=
    List.length_insertionSort dateGe msgs
  have hz : methodSum ⟨0, 0, 0, 0⟩ = 0 := rfl
  refine ⟨rfl, ?_, rfl, ?_⟩ <;> simp only [deduplicate] <;> omega

/-- C2: `deduplicate` is idempotent — re-running it on the unique list of a
first run returns that list unchanged, removing zero duplicates. -/
theorem dedup_idempotent (msgs : List UnifiedMessage) :
    (deduplicate (deduplicate msgs).uniqueMessages).uniqueMessages
      = (deduplicate msgs).uniqueMessages ∧
    (deduplicate (deduplicate msgs).uniqueMessages).stats.duplicatesRemoved
      = 0 := by
  have hsorted := dedup_unique_sorted msgs
  have hfix : List.insertionSort dateGe (deduplicate msgs).uniqueMessages
      = (deduplicate msgs).uniqueMessages :=
    hsorted.insertionSort_eq
  have hre := dedupLoop_rescan (List.insertionSort dateGe msgs)
    emptyDedupState ⟨0, 0, 0, 0⟩ ⟨0, 0, 0, 0⟩
  constructor
  · show (dedupLoop (List.insertionSort dateGe
        (deduplicate msgs).uniqueMessages) emptyDedupState ⟨0, 0, 0, 0⟩).1
      = (deduplicate msgs).uniqueMessages
    rw [hfix]
    show (dedupLoop ((dedupLoop (List.insertionSort dateGe msgs)
        emptyDedupState ⟨0, 0, 0, 0⟩).1) emptyDedupState ⟨0, 0, 0, 0⟩).1
      = (deduplicate msgs).uniqueMessages
    rw [hre]
    rfl
  · show (deduplicate msgs).uniqueMessages.length -
        (dedupLoop (List.insertionSort dateGe
          (deduplicate msgs).uniqueMessages) emptyDedupState
            ⟨0, 0, 0, 0⟩).1.length = 0
    rw [hfix]
    show (deduplicate msgs).uniqueMessages.length -
        (dedupLoop ((dedupLoop (List.insertionSort dateGe msgs)
          emptyDedupState ⟨0, 0, 0, 0⟩).1) emptyDedupState
            ⟨0, 0, 0, 0⟩).1.length = 0
    rw [hre]
    show (deduplicate msgs).uniqueMessages.length -
      (deduplicate msgs).uniqueMessages.length = 0
    exact Nat.sub_self _

/-! ## Symmetry of the fuzzy matcher (C9) -/

theorem levMemo_succ_succ (s1 s2 : List Char) (j i : Nat) :
    levMemo s1 s2 (j + 1) (i + 1)
      = min (min (levMemo s1 s2 j (i + 1) + 1) (levMemo s1 s2 (j + 1) i + 1))
        (levMemo s1 s2 j i +
          (if s1.getD i ' ' = s2.getD j ' ' then 0 else 1)) := rfl

theorem levMemo_symm (s1 s2 : List Char) :
    ∀ j i, levMemo s1 s2 j i = levMemo s2 s1 i j := by
  intro j
  induction j with
  | zero =>
    intro i
    cases i with
    | zero => rfl
    | succ i => rfl
  | succ j ihj =>
    intro i
    induction i with
    | zero => rfl
    | succ i ihi =>
      rw [levMemo_succ_succ, levMemo_succ_succ]
      rw [ihj (i + 1), ihj i, ihi]
      have hc : (if s1.getD i ' ' = s2.getD j ' ' then 0 else 1)
          = (if s2.getD j ' ' = s1.getD i ' ' then (0 : Nat) else 1) := by
        by_cases h : s1.getD i ' ' = s2.getD j ' '
        · rw [if_pos h, if_pos h.symm]
        · rw [if_neg h, if_neg (Ne.symm h)]
      rw [hc]
      conv_lhs => rw [Nat.min_comm (levMemo s2 s1 (i + 1) j + 1)]

theorem levDistance_symm (s1 s2 : List Char) :
    levDistance s1 s2 = levDistance s2 s1 :=
  levMemo_symm s1 s2 s2.length s1.length

theorem calculateSimilarity_symm (a b : String) :
    calculateSimilarity a b = calculateSimilarity b a := by
  simp only [calculateSimilarity]
  by_cases h : toLowerChars a = toLowerChars b
  · simp [h]
  · rw [if_neg h, if_neg (Ne.symm h)]
    by_cases hz : (toLowerChars a).length = 0 ∨ (toLowerChars b).length = 0
    · rw [if_pos hz, if_pos (Or.symm hz)]
    · rw [if_neg hz, if_neg (fun hz' => hz (Or.symm hz'))]
      rw [Nat.max_comm (toLowerChars b).length,
        levDistance_symm (toLowerChars a) (toLowerChars b),
        max_comm (((toLowerChars a).length : Int))]

theorem natAbs_sub_symm (a b : Int) : (a - b).natAbs = (b - a).natAbs := by
  rw [show a - b = -(b - a) by ring, Int.natAbs_neg]

theorem isFuzzyMatch_symm (m1 m2 : UnifiedMessage) :
    isFuzzyMatch m1 m2 = isFuzzyMatch m2 m1 := by
  simp only [isFuzzyMatch]
  rw [calculateSimilarity_symm m1.subject m2.subject,
    natAbs_sub_symm m1.date m2.date]
  by_cases hs : normalizeSender m1.«from» = normalizeSender m2.«from»
  · simp [hs]
  · simp [hs, Ne.symm hs]

/-- C9: the pairwise fuzzy-match predicate is symmetric, its underlying
similarity function is symmetric, similarity of a string with itself is `1`,
and similarity is `0` when one of the strings is empty and they differ. -/
theorem fuzzy_match_symmetric :
    (∀ m1 m2 : UnifiedMessage, isFuzzyMatch m1 m2 = isFuzzyMatch m2 m1) ∧
    (∀ s1 s2 : String,
      calculateSimilarity s1 s2 = calculateSimilarity s2 s1) ∧
    (∀ s : String, calculateSimilarity s s = 1) ∧
    (∀ s1 s2 : String, (s1 = "" ∨ s2 = "") → s1 ≠ s2 →
      calculateSimilarity s1 s2 = 0) := by
  refine ⟨isFuzzyMatch_symm, calculateSimilarity_symm, ?_, ?_⟩
  · intro s
    simp [calculateSimilarity]
  · have key : ∀ s : String, toLowerChars s = [] → s = "" := by
      intro s h
      cases s with
      | mk data =>
        have hdata : data = [] := by
          have hlen := congrArg List.length h
          simpa [toLowerChars] using hlen
        rw [hdata]
    intro s1 s2 hemp hne
    rcases hemp with h | h
    · subst h
      have hcond : ¬(toLowerChars "" = toLowerChars s2) := by
        intro hx
        exact hne (key s2 hx.symm).symm
      have hlen : (toLowerChars "").length = 0 := rfl
      simp only [calculateSimilarity]
      rw [if_neg hcond, if_pos (Or.inl hlen)]
    · subst h
      have hcond : ¬(toLowerChars s1 = toLowerChars "") := by
        intro hx
        exact hne (key s1 hx)
      have hlen : (toLowerChars "").length = 0 := rfl
      simp only [calculateSimilarity]
      rw [if_neg hcond, if_pos (Or.inr hlen)]

/-- Witness for C9 at concrete inputs. -/
theorem fuzzy_match_symmetric_witness : calculateSimilarity "" "x" = 0 :=
  fuzzy_match_symmetric.2.2.2 "" "x" (Or.inl rfl) (by decide)

/-! ## Falsy identifiers (C10) and tie-break (C3) -/

/-- C10: a `globalMessageId` of `0` (or absent) and an empty (or absent)
`messageIdHeader` are falsy, so the corresponding ID strategy neither flags
such a message as a duplicate nor records it in its seen-ID index; such
messages can only be matched by the content-hash or fuzzy strategies. -/
theorem falsy_ids_ignored (m : UnifiedMessage) (st : DedupState) :
    (m.globalMessageId = some 0 ∨ m.globalMessageId = none →
      isDuplicate st m ≠ some DedupMethod.globalId ∧
      (recordMessage st m).seenGlobalIds = st.seenGlobalIds) ∧
    (m.messageIdHeader = some "" ∨ m.messageIdHeader = none →
      isDuplicate st m ≠ some DedupMethod.headerId ∧
      (recordMessage st m).seenMessageIds = st.seenMessageIds) := by
  constructor
  · intro h
    have hg : gidTruthy m.globalMessageId = false := by
      rcases h with h | h <;> simp [gidTruthy, h]
    constructor
    · simp only [isDuplicate, hg, Bool.false_and, Bool.false_eq_true,
        if_false]
      split
      · simp
      · split
        · simp
        · split
          · split <;> simp
          · simp
    · rcases h with h | h <;> simp [recordMessage, h]
  · intro h
    have hh : strTruthy m.messageIdHeader = false := by
      rcases h with h | h <;> simp [strTruthy, h]
    constructor
    · simp only [isDuplicate, hh, Bool.false_and, Bool.false_eq_true,
        if_false]
      split
      · simp
      · split
        · simp
        · split
          · split <;> simp
          · simp
    · rcases h with h | h <;> simp [recordMessage, h]

/-- Witness for C10: a message carrying `globalMessageId = 0` and an empty
`messageIdHeader`, against the empty state. -/
theorem falsy_ids_ignored_witness :
    isDuplicate emptyDedupState
        ⟨"w", some 0, some "", "s", "f", 0, "a", MsgSource.imap⟩
      ≠ some DedupMethod.globalId ∧
    (recordMessage emptyDedupState
        ⟨"w", some 0, some "", "s", "f", 0, "a", MsgSource.imap⟩).seenMessageIds
      = emptyDedupState.seenMessageIds :=
  ⟨(falsy_ids_ignored ⟨"w", some 0, some "", "s", "f", 0, "a",
      MsgSource.imap⟩ emptyDedupState).1 (Or.inl rfl) |>.1,
    (falsy_ids_ignored ⟨"w", some 0, some "", "s", "f", 0, "a",
      MsgSource.imap⟩ emptyDedupState).2 (Or.inl rfl) |>.2⟩

set_option maxRecDepth 40000 in
/-- C3 (counterexample): two messages sharing `globalMessageId = 0` (a valid
value of the field) with different dates are NOT deduplicated — `0` is falsy,
so the global-id strategy never fires: both messages survive and the
`globalMessageId` counter stays `0`, contradicting the claim that the
earlier-dated one is dropped and counted. -/
theorem dedup_tiebreak_cex :
    (deduplicate
        [⟨"a1", some 0, none, "alpha", "a@x", 0, "acct", MsgSource.imap⟩,
         ⟨"b1", some 0, none, "beta", "b@y", 3600000, "acct",
           MsgSource.imap⟩]).uniqueMessages.length = 2 ∧
    (deduplicate
        [⟨"a1", some 0, none, "alpha", "a@x", 0, "acct", MsgSource.imap⟩,
         ⟨"b1", some 0, none, "beta", "b@y", 3600000, "acct",
           MsgSource.imap⟩]).stats.deduplicationMethods.globalMessageId
      = 0 := by
  decide

/-- C3 (amended): when two messages share a NONZERO `globalMessageId` and
have different dates, `deduplicate` of the two-message input retains exactly
the later-dated one (whatever the input order) and counts the drop under the
`globalMessageId` strategy. -/
theorem dedup_tiebreak_amended (m1 m2 : UnifiedMessage) (g : Nat)
    (h1 : m1.globalMessageId = some g) (h2 : m2.globalMessageId = some g)
    (hg : g ≠ 0) (hd : m1.date < m2.date) :
    (deduplicate [m1, m2]).uniqueMessages = [m2] ∧
    (deduplicate [m1, m2]).stats.deduplicationMethods.globalMessageId = 1 ∧
    (deduplicate [m2, m1]).uniqueMessages = [m2] ∧
    (deduplicate [m2, m1]).stats.deduplicationMethods.globalMessageId
      = 1 := by
  have hsort1 : List.insertionSort dateGe [m1, m2] = [m2, m1] := by
    show List.orderedInsert dateGe m1 [m2] = [m2, m1]
    rw [List.orderedInsert, if_neg]
    · rfl
    · exact not_le.mpr hd
  have hsort2 : List.insertionSort dateGe [m2, m1] = [m2, m1] := by
    show List.orderedInsert dateGe m2 [m1] = [m2, m1]
    rw [List.orderedInsert, if_pos]
    exact le_of_lt hd
  have hdup2 : isDuplicate emptyDedupState m2 = none := by
    simp [isDuplicate, emptyDedupState, mapGet]
  have hdup1 : isDuplicate (recordMessage emptyDedupState m2) m1
      = some DedupMethod.globalId := by
    simp [isDuplicate, recordMessage, emptyDedupState, h1, h2, gidTruthy, hg]
  have hloop : dedupLoop [m2, m1] emptyDedupState ⟨0, 0, 0, 0⟩
      = ([m2], ⟨1, 0, 0, 0⟩) := by
    simp [dedupLoop, hdup2, hdup1, bumpMethod]
  refine ⟨?_, ?_, ?_, ?_⟩
  · show (dedupLoop (List.insertionSort dateGe [m1, m2]) emptyDedupState
      ⟨0, 0, 0, 0⟩).1 = [m2]
    rw [hsort1, hloop]
  · show (dedupLoop (List.insertionSort dateGe [m1, m2]) emptyDedupState
      ⟨0, 0, 0, 0⟩).2.globalMessageId = 1
    rw [hsort1, hloop]
  · show (dedupLoop (List.insertionSort dateGe [m2, m1]) emptyDedupState
      ⟨0, 0, 0, 0⟩).1 = [m2]
    rw [hsort2, hloop]
  · show (dedupLoop (List.insertionSort dateGe [m2, m1]) emptyDedupState
      ⟨0, 0, 0, 0⟩).2.globalMessageId = 1
    rw [hsort2, hloop]

/-- Witness for C3 (amended) at the claim's concrete instance:
`globalMessageId = 42`, subject `"Hi"`, dates `T = 0` and `T + 1h`. -/
theorem dedup_tiebreak_amended_witness :
    (deduplicate
        [⟨"h1", some 42, none, "Hi", "a@x.com", 0, "acct", MsgSource.imap⟩,
         ⟨"h2", some 42, none, "Hi", "a@x.com", 3600000, "acct",
           MsgSource.imap⟩]).uniqueMessages
      = [⟨"h2", some 42, none, "Hi", "a@x.com", 3600000, "acct",
           MsgSource.imap⟩] ∧
    (deduplicate
        [⟨"h1", some 42, none, "Hi", "a@x.com", 0, "acct", MsgSource.imap⟩,
         ⟨"h2", some 42, none, "Hi", "a@x.com", 3600000, "acct",
           MsgSource.imap⟩]).stats.deduplicationMethods.globalMessageId
      = 1 :=
  ⟨(dedup_tiebreak_amended
      ⟨"h1", some 42, none, "Hi", "a@x.com", 0, "acct", MsgSource.imap⟩
      ⟨"h2", some 42, none, "Hi", "a@x.com", 3600000, "acct", MsgSource.imap⟩
      42 rfl rfl (by decide) (by decide)).1,
    (dedup_tiebreak_amended
      ⟨"h1", some 42, none, "Hi", "a@x.com", 0, "acct", MsgSource.imap⟩
      ⟨"h2", some 42, none, "Hi", "a@x.com", 3600000, "acct", MsgSource.imap⟩
      42 rfl rfl (by decide) (by decide)).2.1⟩

/-! ## Fuzzy-match scenario (C5) and findPotentialDuplicates (C6) -/

set_option maxRecDepth 100000 in
/-- C5 (counterexample): the spec's scenario `{subject: "Re: Budget"}` /
`{subject: "Budget"}`, same sender, 10 minutes apart, does NOT deduplicate:
`isFuzzyMatch` computes similarity on the raw subjects (the reply-prefix is
stripped only in the lookup key), and
`similarity("re: budget", "budget") = 3/5 < 4/5`, so both messages survive
and no strategy counter moves. -/
theorem fuzzy_example_cex :
    (deduplicate
        [⟨"m1", none, none, "Re: Budget", "a@x.com", 0, "work",
           MsgSource.imap⟩,
         ⟨"m2", none, none, "Budget", "a@x.com", 600000, "work",
           MsgSource.imap⟩]).uniqueMessages.length = 2 ∧
    (deduplicate
        [⟨"m1", none, none, "Re: Budget", "a@x.com", 0, "work",
           MsgSource.imap⟩,
         ⟨"m2", none, none, "Budget", "a@x.com", 600000, "work",
           MsgSource.imap⟩]).stats.deduplicationMethods.fuzzyMatch = 0 := by
  decide

set_option maxRecDepth 100000 in
/-- C5 (amended): on the spec's scenario the two messages are NOT merged:
their fuzzy keys agree (both normalise to `budget|a@x.com|1970-01-01T00`),
but the fuzzy matcher rejects the pair because the similarity of the RAW
subjects is `3/5 < 4/5`; `deduplicate` therefore returns both messages and
every strategy counter is `0`. -/
theorem fuzzy_example_amended :
    calculateSimilarity "Re: Budget" "Budget" = mkRat 3 5 ∧
    generateFuzzyKey
        ⟨"m1", none, none, "Re: Budget", "a@x.com", 0, "work",
          MsgSource.imap⟩
      = generateFuzzyKey
        ⟨"m2", none, none, "Budget", "a@x.com", 600000, "work",
          MsgSource.imap⟩ ∧
    isFuzzyMatch
        ⟨"m1", none, none, "Re: Budget", "a@x.com", 0, "work",
          MsgSource.imap⟩
        ⟨"m2", none, none, "Budget", "a@x.com", 600000, "work",
          MsgSource.imap⟩
      = false ∧
    (deduplicate
        [⟨"m1", none, none, "Re: Budget", "a@x.com", 0, "work",
           MsgSource.imap⟩,
         ⟨"m2", none, none, "Budget", "a@x.com", 600000, "work",
           MsgSource.imap⟩]).uniqueMessages
      = [⟨"m2", none, none, "Budget", "a@x.com", 600000, "work",
           MsgSource.imap⟩,
         ⟨"m1", none, none, "Re: Budget", "a@x.com", 0, "work",
           MsgSource.imap⟩] ∧
    methodSum (deduplicate
        [⟨"m1", none, none, "Re: Budget", "a@x.com", 0, "work",
           MsgSource.imap⟩,
         ⟨"m2", none, none, "Budget", "a@x.com", 600000, "work",
           MsgSource.imap⟩]).stats.deduplicationMethods = 0 := by
  decide

set_option maxRecDepth 100000 in
/-- C6 (counterexample): `areRelated` does not use the content-hash
relation.  The subjects `"b["` and `"az"` collide under the 32-bit content
hash (with equal sender, date and account), so `deduplicate` drops one of
the two messages via the content-hash strategy; yet `findPotentialDuplicates`
returns NO group for the same pair — under the claimed "same four relations"
clustering the pair would have formed a group of size 2. -/
theorem find_dups_cex :
    generateContentHash
        ⟨"a1", none, none, "b[", "x@y.z", 0, "acct", MsgSource.imap⟩
      = generateContentHash
        ⟨"b2", none, none, "az", "x@y.z", 0, "acct", MsgSource.imap⟩ ∧
    (deduplicate
        [⟨"a1", none, none, "b[", "x@y.z", 0, "acct", MsgSource.imap⟩,
         ⟨"b2", none, none, "az", "x@y.z", 0, "acct",
           MsgSource.imap⟩]).stats.deduplicationMethods.contentHash = 1 ∧
    (findPotentialDuplicates
        [⟨"a1", none, none, "b[", "x@y.z", 0, "acct", MsgSource.imap⟩,
         ⟨"b2", none, none, "az", "x@y.z", 0, "acct",
           MsgSource.imap⟩]).duplicateGroups = [] := by
  decide

theorem collectGroup_spec (seed : UnifiedMessage)
    (all : List UnifiedMessage) :
    ∀ processed, ∀ m ∈ (collectGroup seed all processed).1,
      m ∈ all ∧ areRelated seed m = true := by
  induction all with
  | nil => intro processed m hm; simp [collectGroup] at hm
  | cons other rest ih =>
    intro processed m hm
    rw [collectGroup] at hm
    by_cases hskip : (processed.contains other.id || other.id == seed.id)
        = true
    · rw [if_pos hskip] at hm
      exact (ih processed m hm).imp (List.mem_cons_of_mem other) id
    · rw [if_neg hskip] at hm
      by_cases hrel : areRelated seed other = true
      · rw [if_pos hrel] at hm
        rcases List.mem_cons.mp hm with h | h
        · exact ⟨h ▸ List.mem_cons_self other rest, h ▸ hrel⟩
        · exact (ih (other.id :: processed) m h).imp
            (List.mem_cons_of_mem other) id
      · rw [if_neg hrel] at hm
        exact (ih processed m hm).imp (List.mem_cons_of_mem other) id

theorem groupsLoop_spec (all : List UnifiedMessage) :
    ∀ l : List UnifiedMessage, ∀ processed,
      ∀ g ∈ groupsLoop l all processed,
        2 ≤ g.length ∧
        ∃ seed rest, g = seed :: rest ∧ seed ∈ l ∧
          ∀ m ∈ rest, m ∈ all ∧ areRelated seed m = true := by
  intro l
  induction l with
  | nil => intro processed g hg; simp [groupsLoop] at hg
  | cons m rest ih =>
    intro processed g hg
    rw [groupsLoop] at hg
    by_cases hskip : processed.contains m.id = true
    · rw [if_pos hskip] at hg
      rcases ih processed g hg with ⟨hlen, seed, tail, hgeq, hseed, htail⟩
      exact ⟨hlen, seed, tail, hgeq, List.mem_cons_of_mem m hseed, htail⟩
    · rw [if_neg hskip] at hg
      by_cases hbig : 1 < (m :: (collectGroup m all (m.id :: processed)).1).length
      · rw [if_pos hbig] at hg
        rcases List.mem_cons.mp hg with h | h
        · subst h
          refine ⟨hbig, m, (collectGroup m all (m.id :: processed)).1,
            rfl, List.mem_cons_self m rest, ?_⟩
          intro x hx
          exact collectGroup_spec m all (m.id :: processed) x hx
        · rcases ih _ g h with ⟨hlen, seed, tail, hgeq, hseed, htail⟩
          exact ⟨hlen, seed, tail, hgeq, List.mem_cons_of_mem m hseed, htail⟩
      · rw [if_neg hbig] at hg
        rcases ih _ g hg with ⟨hlen, seed, tail, hgeq, hseed, htail⟩
        exact ⟨hlen, seed, tail, hgeq, List.mem_cons_of_mem m hseed, htail⟩

/-- C6 (amended): `findPotentialDuplicates` removes nothing (it only reads
its input); every returned group has size at least 2, consists of input
messages, and is seeded by an input message to which every other group
member is `areRelated` — where `areRelated` checks THREE symmetric
relations (truthy global-id equality, truthy header-id equality, fuzzy
match), not the content-hash relation. -/
theorem find_dups_amended (msgs : List UnifiedMessage) :
    ∀ g ∈ (findPotentialDuplicates msgs).duplicateGroups,
      2 ≤ g.length ∧ (∀ m ∈ g, m ∈ msgs) ∧
      ∃ seed rest, g = seed :: rest ∧
        ∀ m ∈ rest, areRelated seed m = true := by
  intro g hg
  have hspec := groupsLoop_spec msgs msgs [] g hg
  rcases hspec with ⟨hlen, seed, tail, hgeq, hseed, htail⟩
  refine ⟨hlen, ?_, seed, tail, hgeq, fun m hm => (htail m hm).2⟩
  intro m hm
  rw [hgeq] at hm
  rcases List.mem_cons.mp hm with h | h
  · exact h ▸ hseed
  · exact (htail m h).1

set_option maxRecDepth 100000 in
/-- Witness for C6 (amended): two fuzzy-related messages form the one
returned group. -/
theorem find_dups_amended_witness :
    2 ≤ ([⟨"w1", none, none, "hello", "p@q.r", 0, "acct", MsgSource.imap⟩,
          ⟨"w2", none, none, "hello", "p@q.r", 1000, "acct",
            MsgSource.imap⟩] : List UnifiedMessage).length ∧
    (∀ m ∈ ([⟨"w1", none, none, "hello", "p@q.r", 0, "acct",
            MsgSource.imap⟩,
          ⟨"w2", none, none, "hello", "p@q.r", 1000, "acct",
            MsgSource.imap⟩] : List UnifiedMessage),
      m ∈ ([⟨"w1", none, none, "hello", "p@q.r", 0, "acct",
            MsgSource.imap⟩,
          ⟨"w2", none, none, "hello", "p@q.r", 1000, "acct",
            MsgSource.imap⟩] : List UnifiedMessage)) ∧
    ∃ seed rest,
      ([⟨"w1", none, none, "hello", "p@q.r", 0, "acct", MsgSource.imap⟩,
        ⟨"w2", none, none, "hello", "p@q.r", 1000, "acct",
          MsgSource.imap⟩] : List UnifiedMessage) = seed :: rest ∧
      ∀ m ∈ rest, areRelated seed m = true :=
  find_dups_amended
    [⟨"w1", none, none, "hello", "p@q.r", 0, "acct", MsgSource.imap⟩,
     ⟨"w2", none, none, "hello", "p@q.r", 1000, "acct", MsgSource.imap⟩]
    [⟨"w1", none, none, "hello", "p@q.r", 0, "acct", MsgSource.imap⟩,
     ⟨"w2", none, none, "hello", "p@q.r", 1000, "acct", MsgSource.imap⟩]
    (by decide)

/-! ## Cache TTL semantics (C4) and cleanup retention (C8) -/

theorem isSome_opt_map {α β : Type} (f : α → β) (o : Option α) :
    (o.map f).isSome = o.isSome := by
  cases o <;> rfl

theorem find?_insert_last {α : Type} (t : List α) (p q : α → Bool) (row : α)
    (hrow : p row = true) (himp : ∀ x, q x = true → p x = false) :
    List.find? p (t.filter q ++ [row]) = some row := by
  induction t with
  | nil => simp [List.find?, hrow]
  | cons x t ih =>
    by_cases hq : q x = true
    · rw [List.filter_cons_of_pos hq, List.cons_append,
        List.find?_cons_of_neg]
      · exact ih
      · simp [himp x hq]
    · rw [List.filter_cons_of_neg (by simpa using hq)]
      exact ih

/-- C4 (counterexample): at an age exactly equal to the TTL the cache
misses.  A message list cached at time `0` and read at `now = 300000`
(age `= MESSAGE_LIST_TTL`, which "does not exceed" the TTL) returns `none`
even though the row is present — the freshness comparison
`cached_at > now - TTL` is strict. -/
theorem cache_ttl_cex :
    (cacheMessageList 0 emptyCache "k" ["a"] 1).messageLists
      = [⟨"k", ["a"], 1, 0⟩] ∧
    (300000 : Int) - (0 : Int) ≤ MESSAGE_LIST_TTL ∧
    getCachedMessageList 300000 (cacheMessageList 0 emptyCache "k" ["a"] 1)
      "k" = none := by
  decide

/-- C4 (amended): a keyed cache read hits iff a row with that key exists
whose age is STRICTLY below the TTL of its entity class (folders 1 hour,
message lists 5 minutes, message content 24 hours, search results
2 minutes); a `put` immediately followed by a `get` of the same key returns
the stored value, and once the age reaches or exceeds the TTL the read
misses. -/
theorem cache_ttl_amended :
    (∀ (now : Int) (st : MailCacheState) (k : String),
      (getCachedMessageList now st k).isSome = true ↔
        ∃ r ∈ st.messageLists, r.cacheKey = k ∧
          now - r.cachedAt < MESSAGE_LIST_TTL) ∧
    (∀ (now : Int) (st : MailCacheState) (id : String) (ic : Bool),
      (getCachedMessage now st id ic).isSome = true ↔
        ∃ r ∈ st.messages, r.id = id ∧
          now - r.cachedAt
            < (if ic then MESSAGE_CONTENT_TTL else MESSAGE_LIST_TTL)) ∧
    (∀ (now : Int) (st : MailCacheState) (q si : String),
      (getCachedSearchResults now st q si).isSome = true ↔
        ∃ r ∈ st.searchCache, r.query = q ∧ r.searchIn = si ∧
          now - r.cachedAt < SEARCH_TTL) ∧
    (∀ (now : Int) (st : MailCacheState),
      (getCachedFolders now st).isSome = true ↔
        ∃ r ∈ st.folders, now - r.cachedAt < FOLDER_TTL) ∧
    (∀ (now : Int) (st : MailCacheState) (k : String) (ids : List String)
        (n : Nat),
      getCachedMessageList now (cacheMessageList now st k ids n) k
        = some (ids, n)) ∧
    (∀ (now : Int) (st : MailCacheState) (q si : String)
        (ids : List String),
      getCachedSearchResults now (cacheSearchResults now st q si ids) q si
        = some ids) := by
  refine ⟨?_, ?_, ?_, ?_, ?_, ?_⟩
  · intro now st k
    simp only [getCachedMessageList, isSome_opt_map, List.find?_isSome]
    refine exists_congr fun r => and_congr_right fun _ => ?_
    simp only [decide_eq_true_eq]
    constructor
    · rintro ⟨h1, h2⟩; exact ⟨h1, by omega⟩
    · rintro ⟨h1, h2⟩; exact ⟨h1, by omega⟩
  · intro now st id ic
    simp only [getCachedMessage, isSome_opt_map, List.find?_isSome]
    refine exists_congr fun r => and_congr_right fun _ => ?_
    simp only [decide_eq_true_eq]
    constructor
    · rintro ⟨h1, h2⟩; exact ⟨h1, by omega⟩
    · rintro ⟨h1, h2⟩; exact ⟨h1, by omega⟩
  · intro now st q si
    simp only [getCachedSearchResults, isSome_opt_map, List.find?_isSome]
    refine exists_congr fun r => and_congr_right fun _ => ?_
    simp only [decide_eq_true_eq]
    constructor
    · rintro ⟨h1, h2, h3⟩; exact ⟨h1, h2, by omega⟩
    · rintro ⟨h1, h2, h3⟩; exact ⟨h1, h2, by omega⟩
  · intro now st
    simp only [getCachedFolders]
    by_cases h :
        (st.folders.filter
          (fun r => decide (now - FOLDER_TTL < r.cachedAt))).isEmpty = true
    · rw [if_pos h]
      simp only [Option.isSome_none, Bool.false_eq_true, false_iff]
      rintro ⟨r, hr, httl⟩
      have hmem : r ∈ st.folders.filter
          (fun r => decide (now - FOLDER_TTL < r.cachedAt)) :=
        List.mem_filter.mpr ⟨hr, by simp; omega⟩
      rw [List.isEmpty_iff.mp h] at hmem
      exact absurd hmem (List.not_mem_nil r)
    · rw [if_neg h]
      simp only [Option.isSome_some, true_iff]
      rcases List.exists_mem_of_ne_nil _
          (fun hnil => h (List.isEmpty_iff.mpr hnil)) with ⟨r, hr⟩
      rcases List.mem_filter.mp hr with ⟨hmem, hfresh⟩
      have hfresh' : now - FOLDER_TTL < r.cachedAt := by simpa using hfresh
      exact ⟨r, hmem, by omega⟩
  · intro now st k ids n
    simp only [getCachedMessageList, cacheMessageList, insertMessageListRow]
    rw [find?_insert_last]
    · rfl
    · simp only [decide_eq_true_eq, MESSAGE_LIST_TTL]
      exact ⟨by trivial, by omega⟩
    · intro x hx
      simp only [decide_eq_true_eq] at hx ⊢
      simp only [decide_eq_false_iff_not]
      rintro ⟨h1, _⟩
      exact hx h1
  · intro now st q si ids
    simp only [getCachedSearchResults, cacheSearchResults, insertSearchRow]
    rw [find?_insert_last]
    · rfl
    · simp only [decide_eq_true_eq, SEARCH_TTL]
      exact ⟨by trivial, by trivial, by omega⟩
    · intro x hx
      simp only [decide_eq_true_eq] at hx ⊢
      simp only [decide_eq_false_iff_not]
      rintro ⟨h1, h2, _⟩
      exact hx ⟨h1, h2⟩

/-- C8: `cleanup` deletes exactly the rows older than the fixed one-day
retention horizon, in every one of the four tables; every row at or above
the horizon survives unchanged.  The horizon is the constant
`now - 24h` and does not involve any of the per-entity TTLs. -/
theorem cleanup_retention (st : MailCacheState) (now : Int) :
    (∀ r : FolderRow, r ∈ (cleanup now st).folders ↔
      r ∈ st.folders ∧ ¬(r.cachedAt < now - 24 * 60 * 60 * 1000)) ∧
    (∀ r : MessageRow, r ∈ (cleanup now st).messages ↔
      r ∈ st.messages ∧ ¬(r.cachedAt < now - 24 * 60 * 60 * 1000)) ∧
    (∀ r : MessageListRow, r ∈ (cleanup now st).messageLists ↔
      r ∈ st.messageLists ∧ ¬(r.cachedAt < now - 24 * 60 * 60 * 1000)) ∧
    (∀ r : SearchRow, r ∈ (cleanup now st).searchCache ↔
      r ∈ st.searchCache ∧ ¬(r.cachedAt < now - 24 * 60 * 60 * 1000)) := by
  refine ⟨fun r => ?_, fun r => ?_, fun r => ?_, fun r => ?_⟩ <;>
    simp [cleanup, List.mem_filter]
